import Mathlib

/-!
Verification of the EPUB metadata/cover extraction routines and the
concurrent upload-enrichment pipeline of the `books` backend
(`backend/utils/metadata.go`, `backend/handlers/upload.go`).

Strings are modelled as Lean `String` (sequences of characters); Go's
byte-oriented operations coincide with the character-oriented model on the
ASCII inputs relevant here.  Go's Unicode-aware `strings.ToLower` /
`strings.EqualFold` / `strings.TrimSpace` are modelled by their ASCII
restrictions, which agree with Go on ASCII data.  ZIP archives are modelled
as lists of named entries carrying their decompressed contents; XML
unmarshalling (`encoding/xml`) is an external library and is passed in as a
parse oracle producing the struct the Go code decodes into.  I/O failures
while reading an archive entry are outside the model.
-/

namespace Books

/-- Go `unicode.IsSpace` restricted to ASCII: the characters trimmed by
`strings.TrimSpace` from ASCII data. -/
def goIsSpace (c : Char) : Bool :=
  c = ' ' || c = '\t' || c = '\n' || c = '\x0b' || c = '\x0c' || c = '\r'

/-- Model of Go `strings.TrimSpace` (ASCII restriction). -/
def goTrimSpace (s : String) : String :=
  ⟨((s.data.dropWhile goIsSpace).reverse.dropWhile goIsSpace).reverse⟩

/-- Model of Go `strings.ToLower` (ASCII restriction: `Char.toLower` lowers
exactly the letters A-Z). -/
def goToLower (s : String) : String :=
  ⟨s.data.map Char.toLower⟩

/-- Model of Go `strings.EqualFold` (ASCII restriction: simple case folding
coincides with lowercasing both sides). -/
def goEqualFold (a b : String) : Bool :=
  goToLower a == goToLower b

/-- Model of Go `strings.HasPrefix`. -/
def goHasPre (s pre : String) : Bool :=
  pre.data.isPrefixOf s.data

/-- Model of Go `strings.TrimPrefix(s, "#")` as used for `refines`
attributes. -/
def goTrimHash (s : String) : String :=
  if goHasPre s "#" then ⟨s.data.drop 1⟩ else s

/-- Helper for `goFilepathExt`: scan the reversed character list, carrying
the suffix already passed (in source order); stop at a path separator. -/
def goExtRev : List Char → List Char → String
  | [], _ => ""
  | c :: rest, acc =>
    if c = '/' then ""
    else if c = '.' then ⟨'.' :: acc⟩
    else goExtRev rest (c :: acc)

/-- Model of Go `path/filepath.Ext`: the suffix beginning at the final dot
in the final slash-separated element of the path, empty if there is none. -/
def goFilepathExt (s : String) : String :=
  goExtRev s.data.reverse []

/-- Model of Go `strings.TrimSuffix`. -/
def goTrimEnd (s suffix : String) : String :=
  if suffix.data.isSuffixOf s.data then ⟨s.data.take (s.data.length - suffix.data.length)⟩
  else s

/-- First index (if any) at which `sub` occurs in `l`; model of Go
`strings.Index` over the character model. -/
def charsIndex (sub : List Char) : List Char → Option Nat
  | [] => if sub.isEmpty then some 0 else none
  | c :: rest =>
    if sub.isPrefixOf (c :: rest) then some 0
    else (charsIndex sub rest).map (· + 1)

/-- First index of an ASCII whitespace character; model of Go
`strings.IndexAny(s, " \t\n\r")` as used by the raw OPF scanner. -/
def goIndexAnyWS : List Char → Option Nat
  | [] => none
  | c :: rest =>
    if c = ' ' || c = '\t' || c = '\n' || c = '\r' then some 0
    else (goIndexAnyWS rest).map (· + 1)

/-- Model of Go `strings.Contains`. -/
def goContains (s sub : String) : Bool :=
  (charsIndex sub.data s.data).isSome

/-- Source `sanitizeISBN` (`metadata.go`): appends to a builder every rune
`r` with `'0' <= r && r <= '9'`, dropping everything else. -/
def sanitizeISBN (isbn : String) : String :=
  isbn.data.foldl (fun acc r => if '0' ≤ r ∧ r ≤ '9' then acc.push r else acc) ""

/-- Source `isValidISBN` (`metadata.go`): a digits-only string is valid iff
its length is 13 (ISBN-13) or 10 (ISBN-10). -/
def isValidISBN (cleaned : String) : Bool :=
  if cleaned.length = 13 then true
  else if cleaned.length = 10 then true
  else false

/-- One `dc:identifier` element as decoded from the OPF package document:
`id` attribute, `scheme` attribute, character data. -/
structure Identifier where
  id : String
  scheme : String
  value : String
deriving DecidableEq, Repr

/-- One `meta` element as decoded from the OPF package document. -/
structure MetaElem where
  name : String
  property : String
  refines : String
  content : String
deriving DecidableEq, Repr

/-- One manifest `item` element as decoded from the OPF package document. -/
structure ManifestItem where
  id : String
  href : String
  mediaType : String
deriving DecidableEq, Repr

/-- One `rootfile` declaration from `META-INF/container.xml`. -/
structure RootFile where
  fullPath : String
  mediaType : String
deriving DecidableEq, Repr

/-- Decoded `META-INF/container.xml` (source struct `Container`). -/
structure Container where
  rootFiles : List RootFile
deriving DecidableEq, Repr

/-- Decoded OPF package document (source struct `Package`): metadata
identifiers and meta elements, plus the manifest items. -/
structure Package where
  identifiers : List Identifier
  metas : List MetaElem
  items : List ManifestItem
deriving DecidableEq, Repr

/-- Case-insensitive ISBN scheme test from stage 1 of the extractor (the
`scheme` string is already lowercased by the caller). -/
def isbnScheme (scheme : String) : Bool :=
  scheme == "isbn" || scheme == "isbn-13" || scheme == "isbn-10"

/-- Stage 1 of `ExtractISBNFromMultipartFile`: first identifier with an
explicit ISBN scheme whose sanitized value is valid. -/
def stageScheme (ids : List Identifier) : Option String :=
  ids.findSome? fun i =>
    let v := goTrimSpace i.value
    if v = "" then none
    else
      let scheme := goToLower i.scheme
      if isbnScheme scheme then
        let cleaned := sanitizeISBN v
        if isValidISBN cleaned then some cleaned else none
      else none

/-- Guard of stage 2: the meta element designates an ISBN identifier type
(`property` is `identifier-type` or `scheme`, `content` is an ISBN kind,
both compared after lowercasing and trimming as in the source). -/
def metaDesignatesISBN (m : MetaElem) : Bool :=
  let content := goTrimSpace (goToLower m.content)
  let prop := goTrimSpace (goToLower m.property)
  (prop == "identifier-type" || prop == "scheme") &&
    (content == "isbn" || content == "isbn-13" || content == "isbn-10")

/-- Stage 2 of `ExtractISBNFromMultipartFile` (EPUB 3 refinement): for each
designating meta element, look up the first identifier whose `id` matches
the meta's `refines` attribute (leading `#` stripped) and accept its value
if valid; the inner loop breaks after the first id match either way. -/
def stageRefines (metas : List MetaElem) (ids : List Identifier) : Option String :=
  metas.findSome? fun m =>
    if metaDesignatesISBN m then
      let refinesID := goTrimHash (goTrimSpace m.refines)
      match ids.find? (fun i => i.id == refinesID) with
      | some idElem =>
        let v := goTrimSpace idElem.value
        let cleaned := sanitizeISBN v
        if isValidISBN cleaned then some cleaned else none
      | none => none
    else none

/-- Stage 3 of `ExtractISBNFromMultipartFile`: any identifier value that
sanitizes to a valid length, in document order. -/
def stageAnyIdentifier (ids : List Identifier) : Option String :=
  ids.findSome? fun i =>
    let cleaned := sanitizeISBN (goTrimSpace i.value)
    if isValidISBN cleaned then some cleaned else none

/-- Tag-name test of the raw scanner: `strings.HasSuffix(tag, "identifier")`. -/
def tagIsIdentifierLike (tag : List Char) : Bool :=
  ("identifier".data).isSuffixOf tag

/-- Loop body of source `extractIdentifierContents`: walk the raw XML text
from index `i`, collecting the text content of every element whose tag name
ends in `identifier`, exactly mirroring the Go index arithmetic (`continue`
advances by one, a matched element resumes after its closing `>`"). -/
def identScan (s : List Char) (i : Nat) : List (List Char) :=
  if hi : i < s.length then
    if s.get ⟨i, hi⟩ ≠ '<' then identScan s (i + 1)
    else
      match charsIndex ['>'] (s.drop i) with
      | none => []
      | some a =>
        let tagAndAttrs := (s.drop (i + 1)).take (a + i - (i + 1))
        let tag :=
          match goIndexAnyWS tagAndAttrs with
          | some fs => tagAndAttrs.take fs
          | none => tagAndAttrs
        if ¬ tagIsIdentifierLike tag then identScan s (a + i + 1)
        else
          match charsIndex ['<', '/'] (s.drop (a + i + 1)) with
          | none => identScan s (i + 1)
          | some ci =>
            match charsIndex ['>'] (s.drop (a + i + 1 + ci)) with
            | none => identScan s (i + 1)
            | some ce =>
              let closeTag := (s.drop (a + i + 1 + ci + 2)).take (ce - 2)
              if ¬ tagIsIdentifierLike closeTag then identScan s (i + 1)
              else
                let content := (s.drop (a + i + 1)).take ci
                if content.contains '<' then identScan s (a + i + 1 + ci + ce + 1)
                else content :: identScan s (a + i + 1 + ci + ce + 1)
  else []
termination_by s.length - i
decreasing_by
  all_goals omega

/-- Source `extractIdentifierContents`: text content of all elements whose
tag ends with `identifier` (for example `identifier` or `dc:identifier`). -/
def extractIdentifierContents (xmlStr : String) : List String :=
  (identScan xmlStr.data 0).map fun cs => ⟨cs⟩

/-- Source `extractISBNFromRawOPF`: scan the raw OPF text for
identifier-like elements and return the first whose sanitized content is a
valid length (`none` models the empty-string "not found" return). -/
def extractISBNFromRawOPF (opfContent : String) : Option String :=
  (extractIdentifierContents opfContent).findSome? fun v =>
    let cleaned := sanitizeISBN (goTrimSpace v)
    if isValidISBN cleaned then some cleaned else none

/-- Stages 1-4 of `ExtractISBNFromMultipartFile` in order, with stage 4
(raw text scan) guarded by the decoded identifier list being empty, exactly
as in the source. -/
def resolveISBN (pkg : Package) (opfContent : String) : Option String :=
  match stageScheme pkg.identifiers with
  | some isbn => some isbn
  | none =>
    match stageRefines pkg.metas pkg.identifiers with
    | some isbn => some isbn
    | none =>
      match stageAnyIdentifier pkg.identifiers with
      | some isbn => some isbn
      | none =>
        if pkg.identifiers.length = 0 then extractISBNFromRawOPF opfContent
        else none

/-- One entry of a ZIP archive: its name and its decompressed contents
(bytes modelled as a string). -/
structure ZipEntry where
  name : String
  content : String
deriving DecidableEq, Repr

/-- A ZIP archive is its entry list, in archive order. -/
abbrev ZipArchive := List ZipEntry

/-- Source `normalizeZipPath`: replace every backslash by a forward slash. -/
def normalizeZipPath (path : String) : String :=
  ⟨path.data.map fun c => if c = '\\' then '/' else c⟩

/-- Entry-name test of source `findAndReadFileFromZip`: exact match after
backslash normalization, or a case-insensitive match. The wanted path `p`
has already been normalized. -/
def zipNameMatches (name p : String) : Bool :=
  normalizeZipPath name == p || goEqualFold (normalizeZipPath name) p

/-- Source `findAndReadFileFromZip`: the contents of the first entry whose
normalized name matches the wanted path exactly or case-insensitively
(`none` models the "file not found in zip" error; decompression I/O errors
are outside the model). -/
def findAndReadFileFromZip (archive : ZipArchive) (path : String) : Option String :=
  let p := normalizeZipPath path
  (archive.find? fun f => zipNameMatches f.name p).map fun f => f.content

/-- Failure cases of the extraction routines, one per distinct error return
of `ExtractISBNFromMultipartFile` and `ExtractCoverFromEPUBBytes`. -/
inductive ExtractError where
  | containerNotFound
  | malformedContainer
  | noRootfile
  | opfNotFound
  | malformedPackage
  | isbnNotFound
  | coverMetaNotFound
  | coverItemNotFound
  | coverFileNotFound
deriving DecidableEq, Repr

/-- Final step of `ExtractISBNFromMultipartFile` once the package document
has been decoded: run the staged resolution, mapping a miss to the
"no ISBN found in EPUB metadata" error. -/
def extractISBNGivenOPF (pkg : Package) (opfContent : String) : Except ExtractError String :=
  match resolveISBN pkg opfContent with
  | some isbn => .ok isbn
  | none => .error .isbnNotFound

/-- Source `ExtractISBNFromMultipartFile` from the point where the archive
has been opened: locate `META-INF/container.xml` (retrying the lowercase
directory variant as in the source), decode it, read the first rootfile's
package document, decode it, and resolve the ISBN.  `parseContainer` and
`parsePackage` are the `encoding/xml` unmarshalling oracle; `none` models a
parse error. -/
def extractISBNFromEPUB (parseContainer : String → Option Container)
    (parsePackage : String → Option Package) (archive : ZipArchive) :
    Except ExtractError String :=
  let containerTry :=
    match findAndReadFileFromZip archive "META-INF/container.xml" with
    | some c => some c
    | none => findAndReadFileFromZip archive "meta-inf/container.xml"
  match containerTry with
  | none => .error .containerNotFound
  | some containerFile =>
    match parseContainer containerFile with
    | none => .error .malformedContainer
    | some container =>
      match container.rootFiles with
      | [] => .error .noRootfile
      | rf :: _ =>
        match findAndReadFileFromZip archive rf.fullPath with
        | none => .error .opfNotFound
        | some opfContent =>
          match parsePackage opfContent with
          | none => .error .malformedPackage
          | some pkg => extractISBNGivenOPF pkg opfContent

/-- Index of the last `/` in a character list, if any. -/
def lastSlashPos : List Char → Option Nat
  | [] => none
  | c :: rest =>
    match lastSlashPos rest with
    | some i => some (i + 1)
    | none => if c = '/' then some 0 else none

/-- Directory step of `ExtractCoverFromEPUBBytes`: `opfDir` starts as the
whole package path and is cut after the last `/` only when one exists
(`strings.LastIndex(opfPath, "/") >= 0`). -/
def opfDirOf (opfPath : String) : String :=
  match lastSlashPos opfPath.data with
  | some idx => ⟨opfPath.data.take (idx + 1)⟩
  | none => opfPath

/-- Cover path resolution of `ExtractCoverFromEPUBBytes`: concatenate
`opfDir` and the manifest `href`, then normalize backslashes. -/
def resolveCoverPath (opfPath coverHref : String) : String :=
  normalizeZipPath (opfDirOf opfPath ++ coverHref)

/-- Source `ExtractCoverFromEPUBBytes` from the point where the package
document has been decoded: find the `meta name="cover"` element (name
compared with `strings.EqualFold`, content nonempty), resolve its content
against the manifest, read the cover entry at the resolved path, and
default the media type to `image/jpeg`. -/
def extractCoverGivenPackage (archive : ZipArchive) (opfPath : String) (pkg : Package) :
    Except ExtractError (String × String) :=
  match pkg.metas.find? fun m => goEqualFold m.name "cover" && m.content != "" with
  | none => .error .coverMetaNotFound
  | some m =>
    let coverID := m.content
    let found :=
      match pkg.items.find? fun it => it.id == coverID with
      | some it => (it.href, it.mediaType)
      | none => ("", "")
    if found.1 = "" then .error .coverItemNotFound
    else
      match findAndReadFileFromZip archive (resolveCoverPath opfPath found.1) with
      | none => .error .coverFileNotFound
      | some coverBytes =>
        .ok (coverBytes, if found.2 = "" then "image/jpeg" else found.2)

/-- Source `ExtractCoverFromEPUBBytes` from the opened archive: locate the
container (canonical path only, as in the source), decode it, read and
decode the first rootfile's package document, then extract the cover. -/
def extractCoverFromEPUB (parseContainer : String → Option Container)
    (parsePackage : String → Option Package) (archive : ZipArchive) :
    Except ExtractError (String × String) :=
  match findAndReadFileFromZip archive "META-INF/container.xml" with
  | none => .error .containerNotFound
  | some containerFile =>
    match parseContainer containerFile with
    | none => .error .malformedContainer
    | some container =>
      match container.rootFiles with
      | [] => .error .noRootfile
      | rf :: _ =>
        match findAndReadFileFromZip archive rf.fullPath with
        | none => .error .opfNotFound
        | some opfContent =>
          match parsePackage opfContent with
          | none => .error .malformedPackage
          | some pkg => extractCoverGivenPackage archive rf.fullPath pkg

/-!
Specification-side rendering of claim C1: the extractor enumerates, in
order, the candidate values of stages (a)-(d) and returns the first whose
digits-only normalization has length 10 or 13.
-/

/-- Digits-only normalization, as worded by the specification: keep exactly
the decimal digit characters. -/
def isbnDigits (v : String) : String :=
  ⟨v.data.filter Char.isDigit⟩

/-- Acceptance test worded by the specification: a candidate is accepted
iff its digits-only normalization has length 10 or 13, and the normalized
string is what extraction returns. -/
def acceptISBN (v : String) : Option String :=
  let d := isbnDigits v
  if d.length = 10 ∨ d.length = 13 then some d else none

/-- Stage (a) candidates: values of identifiers whose scheme attribute is
case-insensitively `isbn`, `isbn-13` or `isbn-10`, in document order. -/
def schemeCandidates (ids : List Identifier) : List String :=
  (ids.filter fun i => isbnScheme (goToLower i.scheme)).map fun i => i.value

/-- Stage (b) candidates: for each meta element designating an ISBN
identifier type, the value of the identifier whose `id` matches the meta's
`refines` attribute with a leading `#` stripped (first such identifier). -/
def refinesCandidates (metas : List MetaElem) (ids : List Identifier) : List String :=
  metas.filterMap fun m =>
    if metaDesignatesISBN m then
      (ids.find? fun i => i.id == goTrimHash (goTrimSpace m.refines)).map fun i => i.value
    else none

/-- Stage (c) candidates: every identifier's raw value in document order. -/
def anyCandidates (ids : List Identifier) : List String :=
  ids.map fun i => i.value

/-- Stage (d) candidates: the raw-text scan of the package document, used
only when zero identifier elements were parsed. -/
def rawCandidates (pkg : Package) (opfContent : String) : List String :=
  if pkg.identifiers = [] then extractIdentifierContents opfContent else []

/-- All candidates of claim C1's precedence, concatenated in stage order. -/
def isbnCandidates (pkg : Package) (opfContent : String) : List String :=
  schemeCandidates pkg.identifiers
    ++ refinesCandidates pkg.metas pkg.identifiers
    ++ anyCandidates pkg.identifiers
    ++ rawCandidates pkg opfContent

/-- Claim C1's description of the resolution: the first candidate, over the
staged candidate list, whose digits-only normalization is accepted. -/
def resolveISBNSpec (pkg : Package) (opfContent : String) : Option String :=
  (isbnCandidates pkg opfContent).findSome? acceptISBN

/-!
Upload orchestrator (`backend/handlers/upload.go`).  The handler fans out
up to three branches (primary-file storage, ISBN extraction plus catalog
lookup, cover extraction plus cover storage), joins them, assembles the
book record and persists it.  The outcomes of the external calls (object
storage, catalog HTTP lookup, image HTTP fetch, database insert) are
supplied as an environment of oracles; each oracle records the value the
corresponding call would return.  Wall-clock aspects (goroutine scheduling,
`wg.Wait` timing) are outside the functional model.
-/

/-- Normalized catalog metadata (`service.BookMetadata`) as copied into the
record by the upload handler.  `ratingAverage` is a `float64` in the
source; its numeric value never influences control flow, so it is modelled
as an integer. -/
structure BookMetadata where
  title : String
  authors : List String
  publisher : String
  publishDate : String
  isbn : String
  pageCount : Int
  coverURL : String
  thumbnailURL : String
  edition : String
  preface : String
  category : String
  categories : List String
  ratingAverage : Int
  ratingCount : Int
deriving DecidableEq, Repr

/-- Book record (`models.Book`) restricted to the fields the upload handler
writes; Go zero values are the field defaults.  `createdAt` (wall-clock) is
outside the model. -/
structure Book where
  title : String := ""
  authors : List String := []
  publisher : String := ""
  publishDate : String := ""
  isbn : String := ""
  pageCount : Int := 0
  coverURL : String := ""
  thumbnailURL : String := ""
  coverS3Key : String := ""
  edition : String := ""
  preface : String := ""
  category : String := ""
  categories : List String := []
  ratingAverage : Int := 0
  ratingCount : Int := 0
  format : String := ""
  s3Key : String := ""
  originalName : String := ""
  uploadedByEmail : String := ""
deriving DecidableEq, Repr

/-- An HTTP response as seen by `downloadImage`: status code, body bytes
(modelled as a string) and `Content-Type` header. -/
structure HttpResponse where
  status : Nat
  body : String
  contentType : String
deriving DecidableEq, Repr

/-- Source `downloadImage`: on a transport error (`none` response) fail;
on a non-200 status fail; otherwise return the body and the content type,
defaulted to `image/jpeg` when the header is empty. -/
def downloadImage (resp : Option HttpResponse) : Option (String × String) :=
  match resp with
  | none => none
  | some r =>
    if r.status ≠ 200 then none
    else some (r.body, if r.contentType = "" then "image/jpeg" else r.contentType)

/-- Outcomes of the external calls one upload request performs.  `httpGet`
is keyed by URL and timeout seconds so that the model records which URL the
orchestrator fetches and the timeout it passes. -/
structure Env where
  bookUploadResult : Except Unit String
  isbnExtractResult : Except Unit String
  fetchMetadataResult : String → Option BookMetadata
  coverExtractResult : Except Unit (String × String)
  coverUploadResult : Option String
  httpGet : String → Nat → Option HttpResponse
  apiCoverUploadResult : Option String
  insertResult : Option String

/-- Accepted upload formats. -/
inductive Format where
  | epub
  | pdf
deriving DecidableEq, Repr

/-- Fatal failures of the upload handler: format rejection, primary storage
failure, database insert failure. -/
inductive UploadError where
  | unsupportedFormat
  | storageUploadFailed
  | persistFailed
deriving DecidableEq, Repr

/-- Source expression `strings.ToLower(strings.TrimSpace(filepath.Ext(filename)))`. -/
def extLower (filename : String) : String :=
  goToLower (goTrimSpace (goFilepathExt filename))

/-- Source `allowedByExt`: extension is `.epub` or `.pdf`. -/
def allowedByExt (filename : String) : Bool :=
  extLower filename == ".epub" || extLower filename == ".pdf"

/-- Source `allowedByMime`: declared content type starts with
`application/epub+zip` or `application/pdf`. -/
def allowedByMime (partContentType : String) : Bool :=
  goHasPre partContentType "application/epub+zip"
    || goHasPre partContentType "application/pdf"

/-- Format classification of the upload handler: reject when neither the
extension nor the content type is allowed; otherwise EPUB when the
extension is `.epub` or the content type starts with
`application/epub+zip`, else PDF. -/
def classify (filename partContentType : String) : Option Format :=
  if ¬ (allowedByExt filename || allowedByMime partContentType) then none
  else if extLower filename == ".epub"
      || goHasPre partContentType "application/epub+zip" then some Format.epub
  else some Format.pdf

/-- Format string stored on the record (`"epub"` / `"pdf"`). -/
def formatString : Format → String
  | Format.epub => "epub"
  | Format.pdf => "pdf"

/-- Body of the metadata goroutine (branch B): `meta` stays absent when
ISBN extraction errors or yields an empty string, or when the catalog
lookup errors; otherwise it is the lookup's result. -/
def branchMetadata (env : Env) : Option BookMetadata :=
  match env.isbnExtractResult with
  | .error _ => none
  | .ok isbn => if isbn = "" then none else env.fetchMetadataResult isbn

/-- Body of the cover goroutine (branch C): `coverS3Key` stays empty when
cover extraction errors or yields empty bytes, or when the cover's storage
upload errors; otherwise it is the storage key. -/
def branchCover (env : Env) : String :=
  match env.coverExtractResult with
  | .error _ => ""
  | .ok result =>
    if result.1.length = 0 then ""
    else
      match env.coverUploadResult with
      | none => ""
      | some key => key

/-- Enrichment step after the join: copy the catalog metadata onto the
record, keeping the filename title when the catalog title is empty. -/
def applyMetadata (b : Book) (m : BookMetadata) : Book :=
  { b with
    title := if m.title ≠ "" then m.title else b.title
    authors := m.authors
    publisher := m.publisher
    publishDate := m.publishDate
    isbn := m.isbn
    pageCount := m.pageCount
    coverURL := m.coverURL
    thumbnailURL := m.thumbnailURL
    edition := m.edition
    preface := m.preface
    category := m.category
    categories := m.categories
    ratingAverage := m.ratingAverage
    ratingCount := m.ratingCount }

/-- Opportunistic API-cover step: when the catalog metadata carries a cover
URL, fetch it via `downloadImage` with the 10-second timeout and, when the
fetch succeeded with a nonempty body and the storage upload of that image
succeeded, set the record's cover storage key; every failure leaves the
record unchanged. -/
def applyApiCover (env : Env) (m : BookMetadata) (b : Book) : Book :=
  if m.coverURL ≠ "" then
    match downloadImage (env.httpGet m.coverURL 10) with
    | some img =>
      if img.1.length > 0 then
        match env.apiCoverUploadResult with
        | some key => { b with coverS3Key := key }
        | none => b
      else b
    | none => b
  else b

/-- Identifier plus record plus `noISBNFound` flag returned on success. -/
structure UploadOutcome where
  id : String
  book : Book
  noISBNFound : Bool
deriving DecidableEq, Repr

/-- Record assembly after the join, given the format and the primary
storage key: start from the filename-titled record, enrich it from branch
B's metadata (flagging `noISBNFound` when that branch produced nothing),
then attach branch C's cover key or fall back to the opportunistic
API-cover fetch; the metadata and cover branches only ran for EPUBs. -/
def assembleBook (filename uploadedBy : String) (env : Env) (fmt : Format)
    (bookKey : String) : Book × Bool :=
  let fileNameTitle := goTrimEnd filename (goFilepathExt filename)
  let meta := if fmt = Format.epub then branchMetadata env else none
  let coverS3Key := if fmt = Format.epub then branchCover env else ""
  let book0 : Book :=
    { format := formatString fmt
      s3Key := bookKey
      originalName := filename
      uploadedByEmail := uploadedBy
      title := fileNameTitle }
  let enriched :=
    if fmt = Format.epub then
      match meta with
      | some m => (applyMetadata book0 m, false)
      | none => (book0, true)
    else (book0, false)
  let book2 :=
    if fmt = Format.epub then
      if coverS3Key ≠ "" then { enriched.1 with coverS3Key := coverS3Key }
      else
        match meta with
        | some m => applyApiCover env m enriched.1
        | none => enriched.1
    else enriched.1
  (book2, enriched.2)

/-- The upload handler (`Upload`, concurrent version) as a function of the
request data and the external-call outcomes: classify the format, run the
branches (metadata and cover only for EPUBs), join, fail on a primary
storage error, assemble the record, persist, and return the outcome with
the `noISBNFound` flag. -/
def uploadCore (filename partContentType uploadedBy : String) (env : Env) :
    Except UploadError UploadOutcome :=
  match classify filename partContentType with
  | none => .error .unsupportedFormat
  | some fmt =>
    match env.bookUploadResult with
    | .error _ => .error .storageUploadFailed
    | .ok bookKey =>
      let assembled := assembleBook filename uploadedBy env fmt bookKey
      match env.insertResult with
      | none => .error .persistFailed
      | some bookId =>
        .ok { id := bookId, book := assembled.1, noISBNFound := assembled.2 }

/-!
Concrete fixtures used by the scenario evaluations and witnesses.
-/

/-- Catalog metadata fixture with an external cover URL. -/
def demoMeta : BookMetadata :=
  { title := "Effective Java"
    authors := ["Joshua Bloch"]
    publisher := "Addison-Wesley"
    publishDate := "2018"
    isbn := "9780134685991"
    pageCount := 412
    coverURL := "https://covers.example.org/b/id/1.jpg"
    thumbnailURL := ""
    edition := "3"
    preface := ""
    category := ""
    categories := ["Programming"]
    ratingAverage := 4
    ratingCount := 1000 }

/-- Baseline environment: the primary upload and the database insert
succeed, every enrichment oracle fails. -/
def baseEnv : Env :=
  { bookUploadResult := Except.ok "books/defaultkey"
    isbnExtractResult := Except.error ()
    fetchMetadataResult := fun _ => none
    coverExtractResult := Except.error ()
    coverUploadResult := none
    httpGet := fun _ _ => none
    apiCoverUploadResult := none
    insertResult := some "id0" }

/-- Environment where ISBN extraction succeeds but the catalog lookup
fails for every ISBN. -/
def lookupFailureEnv : Env :=
  { baseEnv with isbnExtractResult := Except.ok "9780134190440" }

/-- Environment whose primary storage upload fails. -/
def storageFailureEnv : Env :=
  { baseEnv with bookUploadResult := Except.error () }

/-- Environment with every enrichment oracle succeeding. -/
def richEnv : Env :=
  { baseEnv with
    isbnExtractResult := Except.ok "9780134685991"
    fetchMetadataResult := fun _ => some demoMeta
    coverExtractResult := Except.ok ("IMGBYTES", "image/png")
    coverUploadResult := some "books/covers/c1"
    httpGet := fun _ _ => some { status := 200, body := "APIIMG", contentType := "image/jpeg" }
    apiCoverUploadResult := some "books/covers/api1" }

/-- Environment for the opportunistic API-cover scenario: branch C yields
no cover, branch B yields metadata with an external cover URL, and both
the image fetch and its storage upload succeed. -/
def apiCoverEnv : Env :=
  { baseEnv with
    isbnExtractResult := Except.ok "9780134685991"
    fetchMetadataResult := fun _ => some demoMeta
    httpGet := fun _ _ => some { status := 200, body := "APIIMG", contentType := "image/png" }
    apiCoverUploadResult := some "books/covers/api1" }

/-- Package fixture for the cover-path scenario: a cover meta pointing at
a manifest item with href `images/cover.jpg`. -/
def coverPkg : Package :=
  { identifiers := []
    metas := [{ name := "cover", property := "", refines := "", content := "cover-img" }]
    items := [{ id := "cover-img", href := "images/cover.jpg", mediaType := "image/jpeg" }] }

/-!
Lemma layer: sanitization, trimming, and first-match fusion facts used by
the claim theorems.
-/

theorem isDigit_iff_go (c : Char) : c.isDigit = true ↔ ('0' ≤ c ∧ c ≤ '9') := by
  simp [Char.isDigit]
  exact ⟨fun h => ⟨h.1, h.2⟩, fun h => ⟨h.1, h.2⟩⟩

theorem sanitizeISBN_foldl (l : List Char) (acc : String) :
    l.foldl (fun acc r => if '0' ≤ r ∧ r ≤ '9' then acc.push r else acc) acc
      = ⟨acc.data ++ l.filter Char.isDigit⟩ := by
  induction l generalizing acc with
  | nil => simp
  | cons c rest ih =>
    simp only [List.foldl_cons, List.filter_cons]
    by_cases h : '0' ≤ c ∧ c ≤ '9'
    · have hd : c.isDigit = true := (isDigit_iff_go c).mpr h
      rw [if_pos h, hd, if_pos rfl, ih]
      simp [String.push]
    · have hd : c.isDigit = false := by
        cases hh : c.isDigit
        · rfl
        · exact absurd ((isDigit_iff_go c).mp hh) h
      rw [if_neg h, hd, ih]
      simp

theorem sanitizeISBN_eq_digits (s : String) : sanitizeISBN s = isbnDigits s := by
  unfold sanitizeISBN isbnDigits
  simpa using sanitizeISBN_foldl s.data ""

theorem filter_dropWhile_of_disjoint (q p : Char → Bool)
    (h : ∀ c, p c = true → q c = false) (l : List Char) :
    (l.dropWhile p).filter q = l.filter q := by
  induction l with
  | nil => rfl
  | cons c rest ih =>
    cases hp : p c
    · simp [List.dropWhile_cons, hp]
    · simp [List.dropWhile_cons, hp, ih, List.filter_cons, h c hp]

theorem space_not_digit (c : Char) (hc : goIsSpace c = true) : c.isDigit = false := by
  simp [goIsSpace] at hc
  rcases hc with ((((h | h) | h) | h) | h) | h <;> subst h <;> decide

theorem isbnDigits_trim (v : String) : isbnDigits (goTrimSpace v) = isbnDigits v := by
  unfold isbnDigits goTrimSpace
  show String.mk ((((v.data.dropWhile goIsSpace).reverse.dropWhile goIsSpace).reverse).filter Char.isDigit)
    = String.mk (v.data.filter Char.isDigit)
  rw [List.filter_reverse, filter_dropWhile_of_disjoint _ _ space_not_digit,
    List.filter_reverse, filter_dropWhile_of_disjoint _ _ space_not_digit]
  simp

theorem sanitize_trim_eq_digits (v : String) :
    sanitizeISBN (goTrimSpace v) = isbnDigits v := by
  rw [sanitizeISBN_eq_digits, isbnDigits_trim]

theorem isValidISBN_iff (d : String) :
    isValidISBN d = true ↔ (d.length = 10 ∨ d.length = 13) := by
  unfold isValidISBN
  split_ifs with h13 h10
  · simp [h13]
  · simp [h10]
  · simp [h13, h10]

theorem code_accept_eq (v : String) :
    (if isValidISBN (sanitizeISBN (goTrimSpace v)) then some (sanitizeISBN (goTrimSpace v)) else none)
      = acceptISBN v := by
  rw [sanitize_trim_eq_digits]
  unfold acceptISBN
  by_cases h : (isbnDigits v).length = 10 ∨ (isbnDigits v).length = 13
  · rw [if_pos ((isValidISBN_iff _).mpr h), if_pos h]
  · rw [if_neg (fun hb => h ((isValidISBN_iff _).mp hb)), if_neg h]

theorem trim_empty_accept_none (v : String) (h : goTrimSpace v = "") :
    acceptISBN v = none := by
  have hd : isbnDigits v = "" := by
    rw [← isbnDigits_trim, h]
    rfl
  unfold acceptISBN
  rw [hd]
  simp

theorem findSome?_filter_fuse (p : α → Bool) (f : α → Option β) (l : List α) :
    (l.filter p).findSome? f = l.findSome? fun a => if p a then f a else none := by
  induction l with
  | nil => rfl
  | cons a rest ih =>
    cases hp : p a
    · simp [List.filter_cons, hp, List.findSome?_cons, ih]
    · cases hf : f a <;> simp [List.filter_cons, hp, List.findSome?_cons, ih, hf]

theorem findSome?_filterMap_fuse (g : α → Option β) (f : β → Option γ) (l : List α) :
    (l.filterMap g).findSome? f = l.findSome? fun a => (g a).bind f := by
  induction l with
  | nil => rfl
  | cons a rest ih =>
    cases hg : g a
    · simp [List.filterMap_cons, hg, List.findSome?_cons, ih]
    · rename_i b
      cases hf : f b <;> simp [List.filterMap_cons, hg, List.findSome?_cons, ih, hf]

theorem findSome?_ext (f g : α → Option β) (l : List α) (h : ∀ a ∈ l, f a = g a) :
    l.findSome? f = l.findSome? g := by
  induction l with
  | nil => rfl
  | cons a rest ih =>
    rw [List.findSome?_cons, List.findSome?_cons, h a (by simp)]
    cases g a <;> simp [ih fun b hb => h b (by simp [hb])]

theorem stageScheme_eq (ids : List Identifier) :
    stageScheme ids = (schemeCandidates ids).findSome? acceptISBN := by
  unfold stageScheme schemeCandidates
  rw [List.findSome?_map, findSome?_filter_fuse]
  apply findSome?_ext
  intro i _
  dsimp only [Function.comp]
  by_cases hs : isbnScheme (goToLower i.scheme) = true
  · by_cases hv : goTrimSpace i.value = ""
    · rw [if_pos hv, if_pos hs, trim_empty_accept_none i.value hv]
    · rw [if_neg hv, if_pos hs, if_pos hs]
      exact code_accept_eq i.value
  · by_cases hv : goTrimSpace i.value = "" <;>
      simp [hv, hs]

theorem stageRefines_eq (metas : List MetaElem) (ids : List Identifier) :
    stageRefines metas ids = (refinesCandidates metas ids).findSome? acceptISBN := by
  unfold stageRefines refinesCandidates
  rw [findSome?_filterMap_fuse]
  apply findSome?_ext
  intro m _
  by_cases hd : metaDesignatesISBN m = true
  · rw [if_pos hd, if_pos hd]
    cases hfind : ids.find? fun i => i.id == goTrimHash (goTrimSpace m.refines)
    · simp [hfind]
    · simp only [hfind, Option.map_some, Option.some_bind]
      exact code_accept_eq _
  · simp [hd]

theorem stageAny_eq (ids : List Identifier) :
    stageAnyIdentifier ids = (anyCandidates ids).findSome? acceptISBN := by
  unfold stageAnyIdentifier anyCandidates
  rw [List.findSome?_map]
  apply findSome?_ext
  intro i _
  exact code_accept_eq i.value

theorem rawStage_eq (opfContent : String) :
    extractISBNFromRawOPF opfContent
      = (extractIdentifierContents opfContent).findSome? acceptISBN := by
  unfold extractISBNFromRawOPF
  apply findSome?_ext
  intro v _
  exact code_accept_eq v

/-- C1: for every decoded package document and raw package text, the
extractor resolves the ISBN by the claimed precedence — it returns the
first candidate, over stage (a) scheme-designated identifiers, stage (b)
meta-refined identifiers, stage (c) all identifier values, and stage (d)
the raw-text scan (used only when zero identifier elements were parsed),
whose digits-only normalization has length 10 or 13 — and the final
pipeline step maps a miss of all stages to the `IsbnNotFound` failure. -/
theorem isbn_resolution_follows_precedence (pkg : Package) (opfContent : String) :
    resolveISBN pkg opfContent = resolveISBNSpec pkg opfContent
    ∧ extractISBNGivenOPF pkg opfContent
      = (match resolveISBNSpec pkg opfContent with
         | some isbn => Except.ok isbn
         | none => Except.error ExtractError.isbnNotFound) := by
  have h : resolveISBN pkg opfContent = resolveISBNSpec pkg opfContent := by
    unfold resolveISBN resolveISBNSpec isbnCandidates
    rw [List.findSome?_append, List.findSome?_append, List.findSome?_append,
      ← stageScheme_eq, ← stageRefines_eq, ← stageAny_eq]
    have hraw : (rawCandidates pkg opfContent).findSome? acceptISBN
        = if pkg.identifiers.length = 0 then extractISBNFromRawOPF opfContent else none := by
      unfold rawCandidates
      by_cases hids : pkg.identifiers = []
      · simp [hids, rawStage_eq]
      · simp [hids, List.length_eq_zero, List.findSome?]
    rw [hraw]
    cases stageScheme pkg.identifiers <;>
      cases stageRefines pkg.metas pkg.identifiers <;>
        cases stageAnyIdentifier pkg.identifiers <;>
          simp [Option.or]
  refine ⟨h, ?_⟩
  unfold extractISBNGivenOPF
  rw [h]

theorem applyMetadata_s3Key (b : Book) (m : BookMetadata) :
    (applyMetadata b m).s3Key = b.s3Key := rfl

theorem applyMetadata_coverURL (b : Book) (m : BookMetadata) :
    (applyMetadata b m).coverURL = m.coverURL := rfl

theorem applyApiCover_s3Key (env : Env) (m : BookMetadata) (b : Book) :
    (applyApiCover env m b).s3Key = b.s3Key := by
  unfold applyApiCover
  repeat' first | rfl | split

theorem applyApiCover_coverURL (env : Env) (m : BookMetadata) (b : Book) :
    (applyApiCover env m b).coverURL = b.coverURL := by
  unfold applyApiCover
  repeat' first | rfl | split

theorem assembleBook_s3Key (f u : String) (env : Env) (fmt : Format) (k : String) :
    (assembleBook f u env fmt k).1.s3Key = k := by
  cases fmt
  · cases hm : branchMetadata env <;>
      by_cases hc : branchCover env = "" <;>
        simp [assembleBook, hm, hc, applyApiCover_s3Key, applyMetadata_s3Key]
  · simp [assembleBook]

theorem assembleBook_pdf (f u : String) (env : Env) (k : String) :
    assembleBook f u env Format.pdf k
      = ({ format := "pdf", s3Key := k, originalName := f, uploadedByEmail := u,
           title := goTrimEnd f (goFilepathExt f) }, false) := rfl

/-- C5: for every upload request that passed classification, a record is
persisted only when the primary storage upload succeeded: a failed primary
upload makes the whole operation fail with `StorageUploadFailed` (no record
is created), every successful outcome carries the storage key returned by
the primary upload in its `s3Key` field, and the primary upload is the
only branch whose failure is fatal — with the primary upload and the
insert succeeding, the operation succeeds whatever the metadata and cover
oracles returned. -/
theorem storage_key_invariant (filename partContentType uploadedBy : String)
    (env : Env) (fmt : Format)
    (hc : classify filename partContentType = some fmt) :
    (env.bookUploadResult = Except.error () →
      uploadCore filename partContentType uploadedBy env
        = Except.error UploadError.storageUploadFailed)
    ∧ (∀ res, uploadCore filename partContentType uploadedBy env = Except.ok res →
        env.bookUploadResult = Except.ok res.book.s3Key)
    ∧ (∀ key, env.bookUploadResult = Except.ok key → env.insertResult ≠ none →
        ∃ res, uploadCore filename partContentType uploadedBy env = Except.ok res) := by
  refine ⟨?_, ?_, ?_⟩
  · intro h
    unfold uploadCore
    rw [hc, h]
  · intro res hres
    unfold uploadCore at hres
    rw [hc] at hres
    cases hb : env.bookUploadResult with
    | error e =>
      rw [hb] at hres
      simp at hres
    | ok key =>
      rw [hb] at hres
      cases hi : env.insertResult with
      | none =>
        rw [hi] at hres
        simp at hres
      | some bookId =>
        rw [hi] at hres
        simp only [Except.ok.injEq] at hres
        rw [← hres]
        simp [assembleBook_s3Key]
  · intro key hk hins
    cases hi : env.insertResult with
    | none => exact absurd hi hins
    | some bookId =>
      refine ⟨{ id := bookId,
                book := (assembleBook filename uploadedBy env fmt key).1,
                noISBNFound := (assembleBook filename uploadedBy env fmt key).2 }, ?_⟩
      unfold uploadCore
      rw [hc, hk, hi]

/-- Witness for C5 at a concrete request: an EPUB upload whose primary
storage upload fails is rejected with `StorageUploadFailed`. -/
theorem storage_key_invariant_witness :
    uploadCore "b.epub" "application/epub+zip" "u@example.com" storageFailureEnv
      = Except.error UploadError.storageUploadFailed :=
  (storage_key_invariant "b.epub" "application/epub+zip" "u@example.com"
    storageFailureEnv Format.epub (by decide)).1 rfl

/-- C2 divergence evaluation: an EPUB upload where ISBN extraction
succeeds (the oracle returns the valid ISBN 9780134190440) but the
external catalog lookup fails still succeeds, titled from the filename
with empty enrichment fields — but with `noISBNFound = true`: the handler
derives the flag from the absence of catalog metadata after the join, not
from the extraction outcome, so a swallowed lookup failure also raises the
flag. -/
theorem lookup_failure_sets_noISBNFound :
    uploadCore "mybook.epub" "application/epub+zip" "u@example.com" lookupFailureEnv
      = Except.ok
          { id := "id0"
            book := { title := "mybook", format := "epub", s3Key := "books/defaultkey",
                      originalName := "mybook.epub", uploadedByEmail := "u@example.com" }
            noISBNFound := true } := by
  rfl

/-- C3 divergence evaluation: the cover path is the manifest href prefixed
with `opfDir`, but when the package path contains no `/` the source leaves
`opfDir` as the whole package path instead of the empty string, so for
package path `content.opf` and href `images/cover.jpg` the entry read is
`content.opfimages/cover.jpg` — an archive holding the cover at
`images/cover.jpg` therefore fails with `CoverFileNotFound` — while for a
package path with a directory (`OEBPS/content.opf`) the resolution behaves
as claimed. -/
theorem root_opf_cover_path_eval :
    resolveCoverPath "content.opf" "images/cover.jpg" = "content.opfimages/cover.jpg"
    ∧ extractCoverGivenPackage [{ name := "images/cover.jpg", content := "JPEGDATA" }]
        "content.opf" coverPkg = Except.error ExtractError.coverFileNotFound
    ∧ extractCoverGivenPackage [{ name := "OEBPS/images/cover.jpg", content := "JPEGDATA" }]
        "OEBPS/content.opf" coverPkg = Except.ok ("JPEGDATA", "image/jpeg") := by
  refine ⟨by decide, by rfl, by rfl⟩

/-- C4: sanitization keeps exactly the decimal digit characters of a
candidate, validation accepts exactly the normalized lengths 10 and 13, a
candidate normalizing to length 9 or 11 is invalid, and the identifier
scan skips such a candidate and continues with the remaining ones. -/
theorem sanitize_keeps_digits_and_length_gate (s : String) (i : Identifier)
    (ids : List Identifier)
    (h : (sanitizeISBN (goTrimSpace i.value)).length = 9
       ∨ (sanitizeISBN (goTrimSpace i.value)).length = 11) :
    sanitizeISBN s = ⟨s.data.filter Char.isDigit⟩
    ∧ (isValidISBN (sanitizeISBN s) = true ↔
        ((sanitizeISBN s).length = 10 ∨ (sanitizeISBN s).length = 13))
    ∧ isValidISBN (sanitizeISBN (goTrimSpace i.value)) = false
    ∧ stageAnyIdentifier (i :: ids) = stageAnyIdentifier ids := by
  have hv : isValidISBN (sanitizeISBN (goTrimSpace i.value)) = false := by
    cases hb : isValidISBN (sanitizeISBN (goTrimSpace i.value))
    · rfl
    · have := (isValidISBN_iff _).mp hb
      omega
  refine ⟨sanitizeISBN_eq_digits s, isValidISBN_iff _, hv, ?_⟩
  unfold stageAnyIdentifier
  rw [List.findSome?_cons]
  simp [hv]

/-- Witness for C4 at concrete inputs: the 9-digit candidate `123456789`
is skipped by the scan, while `978-0-13-419044-0` sanitizes to 13 digits. -/
theorem sanitize_keeps_digits_witness :
    ((sanitizeISBN (goTrimSpace (Identifier.mk "a" "isbn" "123456789").value)).length = 9
      ∨ (sanitizeISBN (goTrimSpace (Identifier.mk "a" "isbn" "123456789").value)).length = 11)
    ∧ (sanitizeISBN "978-0-13-419044-0"
        = ⟨("978-0-13-419044-0" : String).data.filter Char.isDigit⟩
      ∧ (isValidISBN (sanitizeISBN "978-0-13-419044-0") = true ↔
          ((sanitizeISBN "978-0-13-419044-0").length = 10
            ∨ (sanitizeISBN "978-0-13-419044-0").length = 13))
      ∧ isValidISBN (sanitizeISBN (goTrimSpace (Identifier.mk "a" "isbn" "123456789").value)) = false
      ∧ stageAnyIdentifier [Identifier.mk "a" "isbn" "123456789"] = stageAnyIdentifier []) :=
  ⟨Or.inl (by decide),
   sanitize_keeps_digits_and_length_gate "978-0-13-419044-0"
     (Identifier.mk "a" "isbn" "123456789") [] (Or.inl (by decide))⟩

theorem beq_implies_fold (a b : String) (h : (a == b) = true) : goEqualFold a b = true := by
  have hab : a = b := by simpa using h
  subst hab
  simp [goEqualFold]

theorem fold_shift (x p q : String) (hpq : goToLower p = goToLower q) :
    goEqualFold x p = goEqualFold x q := by
  unfold goEqualFold
  rw [hpq]

theorem zipMatch_false (name p : String)
    (h : goEqualFold (normalizeZipPath name) p = false) :
    zipNameMatches name p = false := by
  unfold zipNameMatches
  rw [h, Bool.or_false]
  cases hb : (normalizeZipPath name == p)
  · rfl
  · exact absurd (beq_implies_fold _ _ hb) (by simp [h])

theorem findAndRead_none (archive : ZipArchive) (p : String)
    (h : ∀ e ∈ archive, goEqualFold (normalizeZipPath e.name) (normalizeZipPath p) = false) :
    findAndReadFileFromZip archive p = none := by
  have hfind : archive.find? (fun f => zipNameMatches f.name (normalizeZipPath p)) = none :=
    List.find?_eq_none.mpr fun e he => by
      rw [zipMatch_false _ _ (h e he)]
      simp
  unfold findAndReadFileFromZip
  dsimp only
  rw [hfind]
  rfl

/-- C6: for every archive without an entry whose normalized name matches
`META-INF/container.xml` case-insensitively, extraction (a total function:
it cannot panic) fails with `ContainerNotFound`, whatever the XML parse
oracles would have returned; and entry matching normalizes backslashes and
ignores case, accepting in particular the canonical name, the
all-lowercase variant, and a backslashed variant. -/
theorem missing_container_fails (parseContainer : String → Option Container)
    (parsePackage : String → Option Package) (archive : ZipArchive)
    (h : ∀ e ∈ archive,
        goEqualFold (normalizeZipPath e.name) "META-INF/container.xml" = false) :
    extractISBNFromEPUB parseContainer parsePackage archive
      = Except.error ExtractError.containerNotFound
    ∧ (∀ e : ZipEntry, goEqualFold (normalizeZipPath e.name) "META-INF/container.xml" = true →
        findAndReadFileFromZip [e] "META-INF/container.xml" = some e.content)
    ∧ (∀ c : String,
        findAndReadFileFromZip [{ name := "META-INF/container.xml", content := c }]
          "META-INF/container.xml" = some c
        ∧ findAndReadFileFromZip [{ name := "meta-inf/container.xml", content := c }]
          "META-INF/container.xml" = some c
        ∧ findAndReadFileFromZip [{ name := "META-INF\\container.xml", content := c }]
          "META-INF/container.xml" = some c) := by
  have hnorm1 : normalizeZipPath "META-INF/container.xml" = "META-INF/container.xml" := by decide
  have hnorm2 : normalizeZipPath "meta-inf/container.xml" = "meta-inf/container.xml" := by decide
  have hlower : goToLower "meta-inf/container.xml" = goToLower "META-INF/container.xml" := by
    decide
  refine ⟨?_, ?_, ?_⟩
  · have h1 : findAndReadFileFromZip archive "META-INF/container.xml" = none := by
      apply findAndRead_none
      intro e he
      rw [hnorm1]
      exact h e he
    have h2 : findAndReadFileFromZip archive "meta-inf/container.xml" = none := by
      apply findAndRead_none
      intro e he
      rw [hnorm2, fold_shift _ _ _ hlower]
      exact h e he
    unfold extractISBNFromEPUB
    rw [h1, h2]
  · intro e he
    unfold findAndReadFileFromZip
    rw [hnorm1]
    have hm : zipNameMatches e.name "META-INF/container.xml" = true := by
      unfold zipNameMatches
      rw [he]
      simp
    simp [List.find?, hm]
  · intro c
    refine ⟨?_, ?_, ?_⟩ <;>
      simp [findAndReadFileFromZip, List.find?,
        show ∀ n, zipNameMatches n (normalizeZipPath "META-INF/container.xml")
          = zipNameMatches n "META-INF/container.xml" from fun n => by rw [hnorm1],
        show zipNameMatches "META-INF/container.xml" "META-INF/container.xml" = true from by decide,
        show zipNameMatches "meta-inf/container.xml" "META-INF/container.xml" = true from by decide,
        show zipNameMatches "META-INF\\container.xml" "META-INF/container.xml" = true from by decide]

/-- Witness for C6: an archive holding only a `mimetype` entry yields
`ContainerNotFound`. -/
theorem missing_container_fails_witness :
    extractISBNFromEPUB (fun _ => none) (fun _ => none)
        [{ name := "mimetype", content := "application/epub+zip" }]
      = Except.error ExtractError.containerNotFound :=
  (missing_container_fails (fun _ => none) (fun _ => none)
    [{ name := "mimetype", content := "application/epub+zip" }] (by decide)).1

/-- C7: an upload whose lowercased extension is neither `.epub` nor `.pdf`
and whose declared content type starts with neither `application/epub+zip`
nor `application/pdf` is rejected with `UnsupportedFormat` whatever every
external oracle would have returned (no storage upload or extraction work
is consulted); and for an upload classified as PDF the outcome is
independent of the metadata and cover oracles — two environments agreeing
only on the primary upload and insert outcomes yield the same result. -/
theorem unsupported_rejected_and_pdf_skips_extraction
    (filename partContentType uploadedBy : String) (env env' : Env)
    (h1 : env.bookUploadResult = env'.bookUploadResult)
    (h2 : env.insertResult = env'.insertResult) :
    (extLower filename ≠ ".epub" → extLower filename ≠ ".pdf" →
      goHasPre partContentType "application/epub+zip" = false →
      goHasPre partContentType "application/pdf" = false →
      uploadCore filename partContentType uploadedBy env
        = Except.error UploadError.unsupportedFormat)
    ∧ (classify filename partContentType = some Format.pdf →
      uploadCore filename partContentType uploadedBy env
        = uploadCore filename partContentType uploadedBy env') := by
  constructor
  · intro hx1 hx2 hm1 hm2
    unfold uploadCore classify allowedByExt allowedByMime
    simp [beq_iff_eq, hx1, hx2, hm1, hm2]
  · intro hc
    unfold uploadCore
    rw [hc, ← h1, ← h2]
    cases hb : env.bookUploadResult with
    | error e => rfl
    | ok k =>
      cases hi : env.insertResult with
      | none => rfl
      | some bookId => simp [assembleBook_pdf]

/-- Witness for C7: a `.txt` upload declared `text/plain` is rejected with
`UnsupportedFormat`. -/
theorem unsupported_rejected_witness :
    uploadCore "notes.txt" "text/plain" "u@example.com" baseEnv
      = Except.error UploadError.unsupportedFormat :=
  (unsupported_rejected_and_pdf_skips_extraction "notes.txt" "text/plain"
    "u@example.com" baseEnv baseEnv rfl rfl).1
    (by decide) (by decide) (by decide) (by decide)

/-- C10: classification precedence — a file is classified as EPUB exactly
when its lowercased extension is `.epub` or its declared content type
starts with `application/epub+zip` (so a `.pdf`-named file declared
`application/epub+zip` is EPUB); every other accepted file is classified
as PDF; and a `.epub` or `.pdf` extension alone suffices for acceptance,
whatever the declared content type. -/
theorem classification_precedence (filename partContentType : String) :
    (classify filename partContentType = some Format.epub ↔
      (extLower filename = ".epub" ∨ goHasPre partContentType "application/epub+zip" = true))
    ∧ (classify filename partContentType = some Format.pdf ↔
      ((extLower filename = ".epub" ∨ extLower filename = ".pdf"
          ∨ goHasPre partContentType "application/epub+zip" = true
          ∨ goHasPre partContentType "application/pdf" = true)
        ∧ ¬ (extLower filename = ".epub" ∨ goHasPre partContentType "application/epub+zip" = true)))
    ∧ ((extLower filename = ".epub" ∨ extLower filename = ".pdf") →
        classify filename partContentType ≠ none)
    ∧ classify "report.pdf" "application/epub+zip" = some Format.epub := by
  refine ⟨?_, ?_, ?_, by decide⟩ <;>
  · by_cases hx1 : extLower filename = ".epub" <;>
    by_cases hx2 : extLower filename = ".pdf" <;>
    by_cases hm1 : goHasPre partContentType "application/epub+zip" = true <;>
    by_cases hm2 : goHasPre partContentType "application/pdf" = true <;>
      simp [classify, allowedByExt, allowedByMime, beq_iff_eq, hx1, hx2, hm1, hm2]

/-- Witness for C10: a `.pdf`-named file declared `text/plain` is accepted
and classified as PDF. -/
theorem classification_precedence_witness :
    classify "report.pdf" "text/plain" = some Format.pdf :=
  (classification_precedence "report.pdf" "text/plain").2.1.mpr (by decide)

theorem applyApiCover_cases (env : Env) (m : BookMetadata) (b : Book)
    (hurl : m.coverURL ≠ "") :
    (downloadImage (env.httpGet m.coverURL 10) = none →
      (applyApiCover env m b).coverS3Key = b.coverS3Key)
    ∧ (env.apiCoverUploadResult = none →
      (applyApiCover env m b).coverS3Key = b.coverS3Key)
    ∧ (∀ img, downloadImage (env.httpGet m.coverURL 10) = some img → 0 < img.1.length →
        ∀ key2, env.apiCoverUploadResult = some key2 →
          (applyApiCover env m b).coverS3Key = key2) := by
  unfold applyApiCover
  rw [if_pos hurl]
  refine ⟨?_, ?_, ?_⟩
  · intro hdl
    rw [hdl]
  · intro hapi
    cases hdl : downloadImage (env.httpGet m.coverURL 10) with
    | none => rfl
    | some img =>
      by_cases hlen : img.1.length > 0
      · simp [hlen, hapi]
      · simp [hlen]
  · intro img hdl hlen key2 hapi
    rw [hdl]
    simp [hlen, hapi]

/-- C8: for every EPUB upload where the cover branch produced no stored
cover but the catalog metadata carries a nonempty external cover URL, the
orchestrator fetches exactly that URL with the 10-second timeout; when the
fetch returns a nonempty image and its storage upload succeeds, the
record's cover storage key is set to the uploaded key, while a failed
fetch or failed upload leaves the upload successful with the record still
carrying the external cover URL and an empty cover storage key. -/
theorem api_cover_rehosting (filename partContentType uploadedBy : String)
    (env : Env) (m : BookMetadata) (k bid : String)
    (hc : classify filename partContentType = some Format.epub)
    (hm : branchMetadata env = some m)
    (hcov : branchCover env = "")
    (hurl : m.coverURL ≠ "")
    (hk : env.bookUploadResult = Except.ok k)
    (hid : env.insertResult = some bid) :
    ∃ res, uploadCore filename partContentType uploadedBy env = Except.ok res
      ∧ res.noISBNFound = false
      ∧ res.book.coverURL = m.coverURL
      ∧ (downloadImage (env.httpGet m.coverURL 10) = none → res.book.coverS3Key = "")
      ∧ (env.apiCoverUploadResult = none → res.book.coverS3Key = "")
      ∧ (∀ img, downloadImage (env.httpGet m.coverURL 10) = some img → 0 < img.1.length →
          ∀ key2, env.apiCoverUploadResult = some key2 → res.book.coverS3Key = key2) := by
  have hassem : assembleBook filename uploadedBy env Format.epub k
      = (applyApiCover env m (applyMetadata
          { format := "epub", s3Key := k, originalName := filename,
            uploadedByEmail := uploadedBy,
            title := goTrimEnd filename (goFilepathExt filename) } m), false) := by
    unfold assembleBook
    simp [hm, hcov, formatString]
  refine ⟨{ id := bid,
            book := applyApiCover env m (applyMetadata
              { format := "epub", s3Key := k, originalName := filename,
                uploadedByEmail := uploadedBy,
                title := goTrimEnd filename (goFilepathExt filename) } m),
            noISBNFound := false }, ?_, rfl, ?_, ?_, ?_, ?_⟩
  · unfold uploadCore
    rw [hc, hk, hid]
    dsimp only
    rw [hassem]
  · rw [applyApiCover_coverURL, applyMetadata_coverURL]
  · intro hdl
    exact (applyApiCover_cases env m _ hurl).1 hdl
  · intro hapi
    exact (applyApiCover_cases env m _ hurl).2.1 hapi
  · intro img hdl hlen key2 hapi
    exact (applyApiCover_cases env m _ hurl).2.2 img hdl hlen key2 hapi

/-- Witness for C8 in the concrete API-cover environment: branch C yields
no cover, the catalog metadata carries a cover URL, and the fetch and its
upload succeed. -/
theorem api_cover_rehosting_witness :
    ∃ res, uploadCore "c.epub" "application/epub+zip" "u@example.com" apiCoverEnv
        = Except.ok res
      ∧ res.noISBNFound = false
      ∧ res.book.coverURL = demoMeta.coverURL
      ∧ (downloadImage (apiCoverEnv.httpGet demoMeta.coverURL 10) = none →
          res.book.coverS3Key = "")
      ∧ (apiCoverEnv.apiCoverUploadResult = none → res.book.coverS3Key = "")
      ∧ (∀ img, downloadImage (apiCoverEnv.httpGet demoMeta.coverURL 10) = some img →
          0 < img.1.length →
          ∀ key2, apiCoverEnv.apiCoverUploadResult = some key2 →
            res.book.coverS3Key = key2) :=
  api_cover_rehosting "c.epub" "application/epub+zip" "u@example.com" apiCoverEnv
    demoMeta "books/defaultkey" "id0" (by decide) (by decide) (by decide) (by decide)
    rfl rfl

end Books
